import Mathlib

/-!
Verification development for the `build-tools` repository.

The definitions below are a shallow embedding of the two files that carry
the claims under study:

* `src/integratedcheckromgdeps.py` — the dependency validator
  (`check_module_deps`, `__check_version`);
* `src/package-romg.py` — the archive composer (`romgBuilder` and the
  `__main` pipeline).

Python dictionaries become association lists with insert-overwrite
semantics; Python `None`/`''` version strings become `Option String`;
child-process invocations (the external `semver` tool, `rsync`, build
hooks, prepackage scripts) are modelled by their exit codes or, for
`semver`, by an abstract satisfaction function passed as a parameter;
raised exceptions and `sys.exit` become `Except PyError`.
-/

/-! ## Dependency validator: `src/integratedcheckromgdeps.py` -/

/-- A parsed `module.json` descriptor as used by the validator:
`name`, `version` (a JSON string, possibly `''`, or `null` = `none`),
and the `dependencies` mapping name → semver-range, kept as an
association list (Python dict iteration order is the list order). -/
structure ModuleJson where
  name : String
  version : Option String
  dependencies : List (String × String)
deriving Repr, DecidableEq

/-- Python's `v == '' or v is None` test on a version value. -/
def strNone (v : Option String) : Bool :=
  match v with
  | none => true
  | some s => s = ""

/-- `__check_version(version_req, version_str)`: vacuously true when either
side is empty/`None`; otherwise invokes the external `semver -r` tool on
`version_str.split('-')[0]`.  The external tool is the parameter
`semver : range → version → Bool` (`true` = exit status 0). -/
def check_version (semver : String → String → Bool)
    (version_req version_str : Option String) : Bool :=
  if strNone version_str || strNone version_req then true
  else semver (version_req.getD "") (((version_str.getD "").splitOn "-").headD "")

/-- Insert into the name-keyed dict `modules[module_json['name']] = module_json`:
overwrite in place when the key exists, append otherwise. -/
def insertMod (m : List ModuleJson) (x : ModuleJson) : List ModuleJson :=
  if m.any (fun y => y.name = x.name)
  then m.map (fun y => if y.name = x.name then x else y)
  else m ++ [x]

/-- The `modules` dict built by the first loop of `check_module_deps`. -/
def buildModuleMap (ms : List ModuleJson) : List ModuleJson :=
  ms.foldl insertMod []

/-- `modules[dep]` lookup. -/
def findMod (mods : List ModuleJson) (n : String) : Option ModuleJson :=
  mods.find? (fun y => y.name = n)

/-- One diagnostic line written through `logger.error` by
`check_module_deps`; the constructor fields are the format arguments. -/
inductive Diag where
  | baseMismatch (module : String) (baseVersion : Option String) (req : String)
  | missingDep (module : String) (dep : String)
  | versionMismatch (module : String) (dep : String)
      (depVersion : Option String) (req : String)
deriving Repr, DecidableEq

/-- The body of the inner `for dep, version in ... .iteritems()` loop of
`check_module_deps`, for one `(dep, range)` pair of module `modName`:
returns whether this check passed and the diagnostics it emitted. -/
def checkDep (semver : String → String → Bool) (base : ModuleJson)
    (mods : List ModuleJson) (modName dep range : String) : Bool × List Diag :=
  if dep = "bits-base" then
    if check_version semver (some range) base.version then (true, [])
    else (false, [Diag.baseMismatch modName base.version range])
  else
    match findMod mods dep with
    | none => (false, [Diag.missingDep modName dep])
    | some dm =>
      if strNone dm.version = false then
        if check_version semver (some range) dm.version then (true, [])
        else (false, [Diag.versionMismatch modName dep dm.version range])
      else (true, [])

/-- Accumulate one dependency check into `(ret, diagnostics)`. -/
def depStep (semver : String → String → Bool) (base : ModuleJson)
    (mods : List ModuleJson) (modName : String)
    (acc : Bool × List Diag) (dv : String × String) : Bool × List Diag :=
  let r := checkDep semver base mods modName dv.1 dv.2
  (acc.1 && r.1, acc.2 ++ r.2)

/-- The inner loop over one module's dependencies. -/
def modStep (semver : String → String → Bool) (base : ModuleJson)
    (mods : List ModuleJson) (acc : Bool × List Diag) (m : ModuleJson) :
    Bool × List Diag :=
  m.dependencies.foldl (depStep semver base mods m.name) acc

/-- `check_module_deps(base_path, module_path_list)` after the tar/JSON
loading: builds the name-keyed module dict, then scans every module and
every declared dependency, accumulating `ret` (initially `True`) and the
error diagnostics. -/
def check_module_deps (semver : String → String → Bool) (base : ModuleJson)
    (ms : List ModuleJson) : Bool × List Diag :=
  let mods := buildModuleMap ms
  mods.foldl (modStep semver base mods) (true, [])

/-- Whether the check for one `(dep, range)` entry passed. -/
def depOk (semver : String → String → Bool) (base : ModuleJson)
    (mods : List ModuleJson) (modName : String) (dv : String × String) : Bool :=
  (checkDep semver base mods modName dv.1 dv.2).1

/-- Diagnostics emitted by the check for one `(dep, range)` entry. -/
def depDiags (semver : String → String → Bool) (base : ModuleJson)
    (mods : List ModuleJson) (modName : String) (dv : String × String) :
    List Diag :=
  (checkDep semver base mods modName dv.1 dv.2).2

/-! ## Archive composer: `src/package-romg.py` -/

/-- Raw `module.json` content inside a base/module tgz: `dependencies`
may be absent (`__readModuleJson` defaults it to `{}`). -/
structure RawModuleJson where
  name : String
  version : Option String
  dependencies : Option (List (String × String))
deriving Repr, DecidableEq

/-- `__readModuleJson`: normalize a raw descriptor, defaulting
`dependencies` to the empty mapping. -/
def readModuleJson (r : RawModuleJson) : ModuleJson :=
  { name := r.name, version := r.version,
    dependencies := r.dependencies.getD [] }

/-- The parsed `--ownership-info` JSON object. -/
structure Ownership where
  uid : Int
  gid : Int
  uname : String
  gname : String
deriving Repr, DecidableEq

/-- Errors a composition run can raise: `sys.exit(code)`, the
`AttributeError` from reading the unset `self.yarnCacheDir`, the
`KeyError` from `package_info['scripts']`, and the two explicit
`raise Exception(...)` sites. -/
inductive PyError where
  | systemExit (code : Int)
  | attributeError
  | keyError
  | buildFailed (dir : String)
  | prepackageFailed (script : String)
deriving Repr, DecidableEq

/-- The mutable state of a `romgBuilder` instance (`__init__` fields).
`yarnCacheDir` is `none` when `__init__` never assigned the attribute
(any `omgFormatVersion ≠ 1`); paths are joined with `/`. -/
structure romgBuilder where
  tmpDir : String
  rname : String
  rversion : String
  branch : Option String
  modulesInfo : List ModuleJson
  overlays : List (String × String)
  arch : String
  uuidField : Option String
  dataDir : String
  moduleDir : String
  baseDir : String
  overlayDescriptorDir : Option String
  yarnCacheDir : Option String
  ownership : Option Ownership
  baseInfo : Option (String × Option String)
deriving Repr, DecidableEq

/-- `romgBuilder.__init__`: `archEnv` models `OECORE_TARGET_ARCH` and
`uuid` the `uuid4()` draw (format v2 only uses it). -/
def romgBuilder.init (tmpDir name version : String) (branch : Option String)
    (omgFormatVersion : Int) (ownership : Option Ownership)
    (archEnv : Option String) (uuid : String) : romgBuilder :=
  let arch := archEnv.getD "x86_64"
  if omgFormatVersion = 1 then
    { tmpDir := tmpDir, rname := name, rversion := version, branch := branch,
      modulesInfo := [], overlays := [], arch := arch, uuidField := none,
      dataDir := "data",
      moduleDir := "data/base/modules/modules",
      baseDir := ".",
      overlayDescriptorDir := none,
      yarnCacheDir := some (tmpDir ++ "/support/yarn-cache"),
      ownership := ownership, baseInfo := none }
  else
    { tmpDir := tmpDir, rname := name, rversion := version, branch := branch,
      modulesInfo := [], overlays := [], arch := arch, uuidField := some uuid,
      dataDir := "data",
      moduleDir := "modules",
      baseDir := "base",
      overlayDescriptorDir := some (tmpDir ++ "/overlays"),
      yarnCacheDir := none,
      ownership := ownership, baseInfo := none }

/-- `addBase`: record the base descriptor in `info['base']` and append it
to `info['modules']`; the second component is the directory (relative to
the tree) that `__extractTgz` extracts the base archive into. -/
def addBase (b : romgBuilder) (raw : RawModuleJson) : romgBuilder × String :=
  let info := readModuleJson raw
  ({ b with baseInfo := some (info.name, info.version),
            modulesInfo := b.modulesInfo ++ [info] },
   b.baseDir)

/-- `addModule`: append the module descriptor to `info['modules']`; the
second component is `os.path.join(self.moduleDir, name)`, the directory
the module archive is extracted into. -/
def addModule (b : romgBuilder) (raw : RawModuleJson) : romgBuilder × String :=
  let info := readModuleJson raw
  ({ b with modulesInfo := b.modulesInfo ++ [info] },
   b.moduleDir ++ "/" ++ info.name)

/-- `self.info['overlays'][name] = {'version': version}`: dict
insert-overwrite. -/
def insertOverlay (l : List (String × String)) (n v : String) :
    List (String × String) :=
  if l.any (fun p => p.1 = n)
  then l.map (fun p => if p.1 = n then (n, v) else p)
  else l ++ [(n, v)]

/-- `addOverlay`: record the overlay descriptor; extraction goes to the
tree root `'.'` (second component).  The optional relocation of
`overlay.json` into `overlayDescriptorDir` touches only the tree, not the
builder state. -/
def addOverlay (b : romgBuilder) (name version : String) :
    romgBuilder × String :=
  ({ b with overlays := insertOverlay b.overlays name version }, ".")

/-- A manifest-mutating builder call made after `addBase`. -/
inductive BuilderOp where
  | addMod (raw : RawModuleJson)
  | addOvl (name version : String)
deriving Repr, DecidableEq

/-- Apply one builder call to the builder state. -/
def applyOp (b : romgBuilder) : BuilderOp → romgBuilder
  | .addMod raw => (addModule b raw).1
  | .addOvl n v => (addOverlay b n v).1

/-- Number of `addModule` calls in a call sequence. -/
def countAddMod (ops : List BuilderOp) : Nat :=
  ops.countP (fun o => match o with | .addMod _ => true | _ => false)

/-- The `scripts` table of a `package.json`; `none` models a file without
a `scripts` key (then `package_info['scripts']` raises `KeyError`).  Only
the script names (dict keys) matter to `'bits:install' in ...`. -/
structure PackageJson where
  scripts : Option (List String)
deriving Repr, DecidableEq

/-- `__get_bits_install(moduleDir)`: an unreadable `package.json`
(`IOError`) is caught — warning, `False`; otherwise the membership test
`'bits:install' in package_info['scripts']` (raising `KeyError` when the
key is absent). -/
def get_bits_install (packageJson : Option PackageJson) : Except PyError Bool :=
  match packageJson with
  | none => .ok false
  | some pj =>
    match pj.scripts with
    | none => .error .keyError
    | some s => .ok (s.contains "bits:install")

/-- A directory of files: relative path ↦ content hash. -/
abbrev DirContent := List (String × String)

/-- The filesystem-visible state of one module directory in the tree:
whether the directory itself exists, its `package.json` (if readable),
and its `support/yarn-cache` directory (if present). -/
structure ModuleState where
  isDir : Bool
  packageJson : Option PackageJson
  cacheDir : Option DirContent
deriving Repr, DecidableEq

/-- One build-hook child process: the working directory it was started
in and the `YARN_CACHE_FOLDER` value injected into its environment copy. -/
structure HookCall where
  cwd : String
  yarnCacheFolder : String
deriving Repr, DecidableEq

/-- `__buildModule(moduleDir, force_yarn_offline)`: runs the hook only
when both the module directory and its `support/yarn-cache` directory
exist; on exit 0 the cache directory is removed, on a non-zero exit
`Exception('Failed to build yarn for %s')` is raised.  `hookExit` is the
`npm run bits:install` exit status.  (The optional `sed` rewrite of yarn
flags in `package.json` and the `--target_arch` argument do not affect
the modelled state.) -/
def __buildModule (hookExit : Int) (moduleDir : String) (m : ModuleState) :
    Except PyError (ModuleState × List HookCall) :=
  if m.isDir && m.cacheDir.isSome then
    let call : HookCall :=
      { cwd := moduleDir, yarnCacheFolder := moduleDir ++ "/support/yarn-cache" }
    if hookExit = 0 then .ok ({ m with cacheDir := none }, [call])
    else .error (.buildFailed moduleDir)
  else .ok (m, [])

/-- The effect of `rsync -a src/ dst/` (no `--delete`): destination
entries are kept (overwritten by a same-named source file), and source
files absent from the destination are added. -/
def rsyncMerge (src dst : DirContent) : DirContent :=
  dst.map (fun e =>
    match src.find? (fun s => s.1 == e.1) with
    | some s => (e.1, s.2)
    | none => e)
  ++ src.filter (fun s => !(dst.any (fun e => e.1 == s.1)))

/-- `__updateYarnCache(moduleDir)`: skip when the module has no
`support/yarn-cache` directory; otherwise `rsync -a` it into
`self.yarnCacheDir` (reading that attribute raises `AttributeError` when
`__init__` never set it, i.e. format ≠ 1), `sys.exit(1)` on a non-zero
rsync exit, and delete the module cache directory on success.  Returns
the module cache directory state and the shared cache content. -/
def updateYarnCache (rsyncExit : Int) (yarnCacheDir : Option String)
    (moduleCacheDir : Option DirContent) (sharedCache : DirContent) :
    Except PyError (Option DirContent × DirContent) :=
  match moduleCacheDir with
  | none => .ok (none, sharedCache)
  | some mc =>
    match yarnCacheDir with
    | none => .error .attributeError
    | some _ =>
      if rsyncExit = 0 then .ok (none, rsyncMerge mc sharedCache)
      else .error (.systemExit 1)

/-- `buildModule(moduleName, build_module, force_yarn_offline)`: with the
build pass requested, consult `__get_bits_install` and either run
`__buildModule` or log the missing-hook warning; without it, fold the
module cache into the shared cache via `__updateYarnCache`. -/
def buildModule (b : romgBuilder) (moduleName : String) (build_module : Bool)
    (hookExit rsyncExit : Int) (m : ModuleState) (shared : DirContent) :
    Except PyError (ModuleState × List HookCall × DirContent) :=
  let absModuleDir := b.tmpDir ++ "/" ++ b.moduleDir ++ "/" ++ moduleName
  if build_module then
    match get_bits_install m.packageJson with
    | .error e => .error e
    | .ok true =>
      match __buildModule hookExit absModuleDir m with
      | .error e => .error e
      | .ok (m2, calls) => .ok (m2, calls, shared)
    | .ok false => .ok (m, [], shared)
  else
    match updateYarnCache rsyncExit b.yarnCacheDir m.cacheDir shared with
    | .error e => .error e
    | .ok (mc, shared2) => .ok ({ m with cacheDir := mc }, [], shared2)

/-- `buildBase(build_module, force_yarn_offline)`: same hook discipline
on the base directory; no cache merge happens when the build pass is
off. -/
def buildBase (b : romgBuilder) (build_module : Bool) (hookExit : Int)
    (m : ModuleState) : Except PyError (ModuleState × List HookCall) :=
  let absBaseDir := b.tmpDir ++ "/" ++ b.baseDir
  if build_module then
    match get_bits_install m.packageJson with
    | .error e => .error e
    | .ok true => __buildModule hookExit absBaseDir m
    | .ok false => .ok (m, [])
  else .ok (m, [])

/-- `combineNpmPackages(build_module, force_yarn_offline)`: the `nip`
invocation is best-effort (its absence only warns); `makedirs` then
ensures `support/yarn-cache` exists at the tree root, and the root-level
`package.json` goes through the same build-or-cache split.  (Under
format 1 the root cache directory and `self.yarnCacheDir` are the same
physical directory; the model keeps their contents as separate values.) -/
def combineNpmPackages (b : romgBuilder) (build_module : Bool)
    (hookExit rsyncExit : Int) (root : ModuleState) (shared : DirContent) :
    Except PyError (ModuleState × List HookCall × DirContent) :=
  let root := { root with cacheDir := some (root.cacheDir.getD []) }
  if build_module then
    match get_bits_install root.packageJson with
    | .error e => .error e
    | .ok true =>
      match __buildModule hookExit b.tmpDir root with
      | .error e => .error e
      | .ok (r2, calls) => .ok (r2, calls, shared)
    | .ok false => .ok (root, [], shared)
  else
    match updateYarnCache rsyncExit b.yarnCacheDir root.cacheDir shared with
    | .error e => .error e
    | .ok (mc, shared2) => .ok ({ root with cacheDir := mc }, [], shared2)

/-- One prepackage-script child process: path run and its working
directory. -/
structure ScriptRun where
  path : String
  cwd : String
deriving Repr, DecidableEq

/-- The `for scriptName in scripts` loop of `runPrepackageScripts`: each
regular file runs as a child process with `cwd = self.tmpDir`; the first
non-zero exit logs an error and raises
`Exception('Failed to run prepackage hook %s')`, ending the loop.
Input entries are `(file name, exit status)` in listing order. -/
def runScriptsLoop (scriptDir tmpDir : String) :
    List (String × Int) → Except PyError Unit × List ScriptRun
  | [] => (.ok (), [])
  | (n, code) :: rest =>
    let run : ScriptRun := { path := scriptDir ++ "/" ++ n, cwd := tmpDir }
    if code = 0 then
      let r := runScriptsLoop scriptDir tmpDir rest
      (r.1, run :: r.2)
    else (.error (.prepackageFailed (scriptDir ++ "/" ++ n)), [run])

/-- `runPrepackageScripts()`: nothing happens when the reserved
`prepackage_scripts` directory is absent; otherwise run every regular
file in it and, only after the loop finishes, `shutil.rmtree` the
directory.  Returns (exception outcome, script directory state
afterwards, child processes run). -/
def runPrepackageScripts (tmpDir : String)
    (scriptDir : Option (List (String × Int))) :
    Except PyError Unit × Option (List (String × Int)) × List ScriptRun :=
  match scriptDir with
  | none => (.ok (), none, [])
  | some scripts =>
    let r := runScriptsLoop (tmpDir ++ "/prepackage_scripts") tmpDir scripts
    match r.1 with
    | .error e => (.error e, some scripts, r.2)
    | .ok _ => (.ok (), none, r.2)

/-- The `.romg` file name chosen by `writeRomg`. -/
def romgFilename (b : romgBuilder) : String :=
  match b.branch with
  | some br => b.rname ++ "_" ++ br ++ "_" ++ b.rversion ++ ".romg"
  | none => b.rname ++ "_" ++ b.rversion ++ ".romg"

/-- The sibling header file name chosen by `writeRomg`. -/
def headerFilename (b : romgBuilder) : String :=
  match b.branch with
  | some br => b.rname ++ "_" ++ br ++ "_" ++ b.rversion ++ "_header.json"
  | none => b.rname ++ "_" ++ b.rversion ++ "_header.json"

/-- `writeRomg(outputDir, ...)`: the two files it creates in the output
directory (the tar payload and ownership rewriting are not needed by the
claims). -/
def writeRomg (b : romgBuilder) (outputDir : String) : List String :=
  [outputDir ++ "/" ++ romgFilename b, outputDir ++ "/" ++ headerFilename b]

/-- One entry of `romg.info['modules']` as seen by the build loop of
`__main`, together with the state of its directory in the tree and the
exit status its hook would produce. -/
structure ModEntry where
  ename : String
  state : ModuleState
  hookExit : Int
deriving Repr, DecidableEq

/-- The `for module in romg.info['modules']` loop of `__main`: every
entry whose name differs from `'bits-base'` goes through
`romg.buildModule`; the shared cache threads through. -/
def buildModulesLoop (b : romgBuilder) (build : Bool) (rsyncExit : Int) :
    List ModEntry → DirContent → Except PyError DirContent
  | [], shared => .ok shared
  | e :: rest, shared =>
    if e.ename ≠ "bits-base" then
      match buildModule b e.ename build e.hookExit rsyncExit e.state shared with
      | .error err => .error err
      | .ok (_, _, shared2) => buildModulesLoop b build rsyncExit rest shared2
    else buildModulesLoop b build rsyncExit rest shared

/-- The per-run inputs of `__main` that the fallible pipeline steps
consume. -/
structure RunConfig where
  buildNodeModules : Bool
  rsyncExit : Int
  rootState : ModuleState
  rootHookExit : Int
  baseState : ModuleState
  baseHookExit : Int
  modEntries : List ModEntry
  scriptDir : Option (List (String × Int))
deriving Repr, DecidableEq

/-- What a composition run leaves behind: the exception outcome, whether
the `tempfile.mkdtemp` WorkingTree still exists, and the files written
to the output directory. -/
structure RunOutcome where
  result : Except PyError Unit
  workingTreeExists : Bool
  outputFiles : List String
deriving Repr

/-- The fallible pipeline of `__main` after the WorkingTree is created:
`combineNpmPackages`, `buildBase`, the `buildModule` loop, the overlay
and caller-script steps (which do not raise), then
`romg.runPrepackageScripts()`. -/
def mainSteps (b : romgBuilder) (cfg : RunConfig) : Except PyError Unit := do
  let r1 ← combineNpmPackages b cfg.buildNodeModules cfg.rootHookExit
    cfg.rsyncExit cfg.rootState []
  let _ ← buildBase b cfg.buildNodeModules cfg.baseHookExit cfg.baseState
  let _ ← buildModulesLoop b cfg.buildNodeModules cfg.rsyncExit
    cfg.modEntries r1.2.2
  let r := runPrepackageScripts b.tmpDir cfg.scriptDir
  match r.1 with
  | .error e => throw e
  | .ok _ => pure ()

/-- `__main` from `tempfile.mkdtemp` on: every raise propagates out of
the function, skipping both `romg.writeRomg` and the final
`shutil.rmtree(tmpDir)` (lines 377-380 run only on the fall-through
path), so an aborted run leaves the WorkingTree behind and writes no
output file; a completed run writes the `.romg`/header pair and removes
the tree. -/
def mainRun (b : romgBuilder) (cfg : RunConfig) (outputDir : String) :
    RunOutcome :=
  match mainSteps b cfg with
  | .error e =>
    { result := .error e, workingTreeExists := true, outputFiles := [] }
  | .ok _ =>
    { result := .ok (), workingTreeExists := false,
      outputFiles := writeRomg b outputDir }

/-! ## Helper lemmas on the validator -/

theorem depStep_foldl (semver : String → String → Bool) (base : ModuleJson)
    (mods : List ModuleJson) (n : String) :
    ∀ (l : List (String × String)) (acc : Bool × List Diag),
      l.foldl (depStep semver base mods n) acc
        = (acc.1 && l.all (depOk semver base mods n),
           acc.2 ++ l.flatMap (depDiags semver base mods n))
  | [], acc => by simp
  | dv :: rest, acc => by
    rw [List.foldl_cons, depStep_foldl semver base mods n rest]
    simp [depStep, depOk, depDiags, Bool.and_assoc]

theorem modStep_foldl (semver : String → String → Bool) (base : ModuleJson)
    (mods : List ModuleJson) :
    ∀ (l : List ModuleJson) (acc : Bool × List Diag),
      l.foldl (modStep semver base mods) acc
        = (acc.1 && l.all (fun m => m.dependencies.all
              (depOk semver base mods m.name)),
           acc.2 ++ l.flatMap (fun m => m.dependencies.flatMap
              (depDiags semver base mods m.name)))
  | [], acc => by simp
  | m :: rest, acc => by
    rw [List.foldl_cons, modStep_foldl semver base mods rest]
    simp [modStep, depStep_foldl, Bool.and_assoc]

/-- `check_module_deps` scans everything: its boolean is the conjunction
of all per-dependency checks and its diagnostics are the concatenation of
all per-dependency diagnostics, over the whole deduplicated module map. -/
theorem check_module_deps_eq (semver : String → String → Bool)
    (base : ModuleJson) (ms : List ModuleJson) :
    check_module_deps semver base ms
      = ((buildModuleMap ms).all (fun m => m.dependencies.all
            (depOk semver base (buildModuleMap ms) m.name)),
         (buildModuleMap ms).flatMap (fun m => m.dependencies.flatMap
            (depDiags semver base (buildModuleMap ms) m.name))) := by
  unfold check_module_deps
  rw [modStep_foldl]
  simp

/-- A single dependency check passes exactly when it emits no
diagnostic. -/
theorem depOk_iff_depDiags_nil (semver : String → String → Bool)
    (base : ModuleJson) (mods : List ModuleJson) (n : String)
    (dv : String × String) :
    depOk semver base mods n dv = true ↔ depDiags semver base mods n dv = [] := by
  unfold depOk depDiags checkDep
  split
  · split <;> simp
  · rcases h : findMod mods dv.1 with _ | dm
    · simp
    · simp only []
      split
      · split <;> simp
      · simp

theorem namesOf_insertMod (m : List ModuleJson) (x : ModuleJson) :
    (insertMod m x).map ModuleJson.name
      = if m.any (fun y => y.name = x.name)
        then m.map ModuleJson.name
        else m.map ModuleJson.name ++ [x.name] := by
  unfold insertMod
  split
  · rw [List.map_map]
    apply List.map_congr_left
    intro y _
    by_cases h : y.name = x.name <;> simp [h]
  · simp

theorem nodup_namesOf_insertMod (m : List ModuleJson) (x : ModuleJson)
    (h : (m.map ModuleJson.name).Nodup) :
    ((insertMod m x).map ModuleJson.name).Nodup := by
  rw [namesOf_insertMod]
  split
  · exact h
  · rename_i hno
    have hx : x.name ∉ m.map ModuleJson.name := by
      intro hmem
      apply hno
      rcases List.mem_map.mp hmem with ⟨y, hy, hyx⟩
      exact List.any_eq_true.mpr ⟨y, hy, by simp [hyx]⟩
    simp [List.nodup_append, h, List.disjoint_singleton, hx]

theorem nodup_namesOf_buildModuleMap (ms : List ModuleJson) :
    ((buildModuleMap ms).map ModuleJson.name).Nodup := by
  unfold buildModuleMap
  have h : ∀ acc : List ModuleJson, (acc.map ModuleJson.name).Nodup →
      ((ms.foldl insertMod acc).map ModuleJson.name).Nodup := by
    induction ms with
    | nil => intro acc hacc; simpa using hacc
    | cons y ys ih =>
      intro acc hacc
      exact ih _ (nodup_namesOf_insertMod _ _ hacc)
  exact h [] (by simp)

/-- Whether a diagnostic is the missing-dependency line for `(nm, dep)`. -/
def isMissing (nm dep : String) (d : Diag) : Bool :=
  d = Diag.missingDep nm dep

theorem countP_isMissing_depDiags (semver : String → String → Bool)
    (base : ModuleJson) (mods : List ModuleJson) (nm dep n' : String)
    (dv : String × String) :
    (depDiags semver base mods n' dv).countP (isMissing nm dep)
      = if n' = nm ∧ dv.1 = dep ∧ dep ≠ "bits-base" ∧ findMod mods dep = none
        then 1 else 0 := by
  unfold depDiags checkDep
  by_cases hbb : dv.1 = "bits-base"
  · have hc : ¬(n' = nm ∧ dv.1 = dep ∧ dep ≠ "bits-base" ∧
        findMod mods dep = none) := by
      rintro ⟨-, h1, h2, -⟩
      exact h2 (h1 ▸ hbb)
    rw [if_neg hc, if_pos hbb]
    split <;> simp [isMissing]
  · rw [if_neg hbb]
    cases hf : findMod mods dv.1 with
    | none =>
      by_cases h1 : n' = nm
      · by_cases h2 : dv.1 = dep
        · have hc : n' = nm ∧ dv.1 = dep ∧ dep ≠ "bits-base" ∧
              findMod mods dep = none :=
            ⟨h1, h2, fun h => hbb (h2.trans h), h2 ▸ hf⟩
          rw [if_pos hc]
          simp [isMissing, h1, h2]
        · have hc : ¬(n' = nm ∧ dv.1 = dep ∧ dep ≠ "bits-base" ∧
              findMod mods dep = none) := by
            rintro ⟨-, h2', -, -⟩
            exact h2 h2'
          rw [if_neg hc]
          simp [isMissing, h2]
      · have hc : ¬(n' = nm ∧ dv.1 = dep ∧ dep ≠ "bits-base" ∧
            findMod mods dep = none) := by
          rintro ⟨h1', -, -, -⟩
          exact h1 h1'
        rw [if_neg hc]
        simp [isMissing, h1]
    | some dm =>
      have hc : ¬(n' = nm ∧ dv.1 = dep ∧ dep ≠ "bits-base" ∧
          findMod mods dep = none) := by
        rintro ⟨-, h2, -, h4⟩
        rw [h2, h4] at hf
        cases hf
      rw [if_neg hc]
      split
      · rename_i x heq
        exact absurd heq (by simp)
      · rename_i x dm2 heq
        split
        · split <;> simp [isMissing]
        · simp [isMissing]

theorem countP_isMissing_ne (semver : String → String → Bool)
    (base : ModuleJson) (mods : List ModuleJson) (nm dep n' : String)
    (h : n' ≠ nm) :
    ∀ l : List (String × String),
      (l.flatMap (depDiags semver base mods n')).countP (isMissing nm dep) = 0
  | [] => by simp
  | dv :: rest => by
    rw [List.flatMap_cons, List.countP_append,
      countP_isMissing_depDiags semver base mods nm dep n' dv,
      countP_isMissing_ne semver base mods nm dep n' h rest]
    rw [if_neg (by rintro ⟨h1, -, -, -⟩; exact h h1)]

theorem countP_isMissing_flatMap_deps (semver : String → String → Bool)
    (base : ModuleJson) (mods : List ModuleJson) (nm dep n' : String) :
    ∀ l : List (String × String), (l.map Prod.fst).Nodup →
      (l.flatMap (depDiags semver base mods n')).countP (isMissing nm dep)
        = if n' = nm ∧ dep ≠ "bits-base" ∧ findMod mods dep = none ∧
              dep ∈ l.map Prod.fst
          then 1 else 0
  | [], _ => by simp
  | dv :: rest, hnd => by
    have hnd' : (rest.map Prod.fst).Nodup := by
      rw [List.map_cons, List.nodup_cons] at hnd
      exact hnd.2
    have hdv : dv.1 ∉ rest.map Prod.fst := by
      rw [List.map_cons, List.nodup_cons] at hnd
      exact hnd.1
    rw [List.flatMap_cons, List.countP_append,
      countP_isMissing_depDiags semver base mods nm dep n' dv,
      countP_isMissing_flatMap_deps semver base mods nm dep n' rest hnd']
    by_cases hA : n' = nm ∧ dep ≠ "bits-base" ∧ findMod mods dep = none
    · rcases hA with ⟨h1, h2, h3⟩
      by_cases hd : dv.1 = dep
      · rw [if_pos ⟨h1, hd, h2, h3⟩,
          if_neg (by rintro ⟨-, -, -, hmem⟩; exact hdv (hd ▸ hmem)),
          if_pos ⟨h1, h2, h3, by rw [List.map_cons, ← hd]; exact .head _⟩]
      · rw [if_neg (by rintro ⟨-, hd', -, -⟩; exact hd hd')]
        by_cases hm : dep ∈ rest.map Prod.fst
        · rw [if_pos ⟨h1, h2, h3, hm⟩,
            if_pos ⟨h1, h2, h3, by rw [List.map_cons]; exact .tail _ hm⟩]
        · rw [if_neg (by rintro ⟨-, -, -, hm'⟩; exact hm hm'),
            if_neg (by
              rintro ⟨-, -, -, hm'⟩
              rw [List.map_cons] at hm'
              rcases List.mem_cons.mp hm' with h | h
              · exact hd (h.symm)
              · exact hm h)]
    · rw [if_neg (by rintro ⟨h1, -, h2, h3⟩; exact hA ⟨h1, h2, h3⟩),
        if_neg (by rintro ⟨h1, h2, h3, -⟩; exact hA ⟨h1, h2, h3⟩),
        if_neg (by rintro ⟨h1, h2, h3, -⟩; exact hA ⟨h1, h2, h3⟩)]

theorem countP_isMissing_mods_zero (semver : String → String → Bool)
    (base : ModuleJson) (mods : List ModuleJson) (nm dep : String) :
    ∀ L : List ModuleJson, (∀ m' ∈ L, m'.name ≠ nm) →
      (L.flatMap (fun m' => m'.dependencies.flatMap
        (depDiags semver base mods m'.name))).countP (isMissing nm dep) = 0
  | [], _ => by simp
  | m' :: L', h => by
    rw [List.flatMap_cons, List.countP_append,
      countP_isMissing_ne semver base mods nm dep m'.name (h m' (.head _))
        m'.dependencies,
      countP_isMissing_mods_zero semver base mods nm dep L'
        (fun x hx => h x (.tail _ hx))]

theorem countP_isMissing_total (semver : String → String → Bool)
    (base : ModuleJson) (mods : List ModuleJson) (dep : String)
    (m : ModuleJson) (hdepnodup : (m.dependencies.map Prod.fst).Nodup)
    (hbb : dep ≠ "bits-base") (hnone : findMod mods dep = none)
    (hmem : dep ∈ m.dependencies.map Prod.fst) :
    ∀ L : List ModuleJson, (L.map ModuleJson.name).Nodup → m ∈ L →
      (L.flatMap (fun m' => m'.dependencies.flatMap
        (depDiags semver base mods m'.name))).countP (isMissing m.name dep) = 1
  | [], _, hm => absurd hm (by simp)
  | m' :: L', hnd, hm => by
    have hnd1 : m'.name ∉ L'.map ModuleJson.name := by
      rw [List.map_cons, List.nodup_cons] at hnd
      exact hnd.1
    have hnd2 : (L'.map ModuleJson.name).Nodup := by
      rw [List.map_cons, List.nodup_cons] at hnd
      exact hnd.2
    rw [List.flatMap_cons, List.countP_append]
    rcases List.mem_cons.mp hm with he | hm'
    · subst he
      rw [countP_isMissing_flatMap_deps semver base mods m.name dep m.name
          m.dependencies hdepnodup,
        if_pos ⟨rfl, hbb, hnone, hmem⟩,
        countP_isMissing_mods_zero semver base mods m.name dep L'
          (fun x hx hxn => hnd1 (hxn ▸ List.mem_map_of_mem ModuleJson.name hx))]
    · have hne : m'.name ≠ m.name := fun h =>
        hnd1 (h ▸ List.mem_map_of_mem ModuleJson.name hm')
      rw [countP_isMissing_ne semver base mods m.name dep m'.name hne
          m'.dependencies,
        countP_isMissing_total semver base mods dep m hdepnodup hbb hnone hmem
          L' hnd2 hm']

/-- Whether a diagnostic is a base-version-mismatch line. -/
def isBaseMismatch (d : Diag) : Bool :=
  match d with
  | .baseMismatch _ _ _ => true
  | _ => false

theorem no_baseMismatch_depDiags (semver : String → String → Bool)
    (base : ModuleJson) (hb : strNone base.version = true)
    (mods : List ModuleJson) (n' : String) (dv : String × String) :
    ∀ d ∈ depDiags semver base mods n' dv, isBaseMismatch d = false := by
  intro d hd
  unfold depDiags checkDep at hd
  by_cases hbb : dv.1 = "bits-base"
  · rw [if_pos hbb] at hd
    have hcv : check_version semver (some dv.2) base.version = true := by
      unfold check_version
      rw [hb]
      simp
    rw [if_pos hcv] at hd
    simp at hd
  · rw [if_neg hbb] at hd
    cases hf : findMod mods dv.1 with
    | none =>
      rw [hf] at hd
      simp at hd
      rw [hd]
      rfl
    | some dm =>
      rw [hf] at hd
      split at hd
      · rename_i heq
        exact absurd heq (by simp)
      · rename_i x dm2 heq
        split at hd
        · split at hd
          · simp at hd
          · simp at hd
            rw [hd]
            rfl
        · simp at hd

/-! ## Claim theorems: dependency validator -/

/-- C4: for every module of the validated set and every declared
dependency `(dep, range)` with `dep ≠ "bits-base"`: when `dep` is absent
from the module map, `check_module_deps` returns `ret = False` and its
diagnostics contain exactly one missing-dependency line naming that
module and that dependency; and a `"bits-base"` dependency is evaluated
against the base descriptor's version with no lookup in the module map
(the result does not mention the map at all). -/
theorem C4_missing_dep_and_bits_base (semver : String → String → Bool)
    (base : ModuleJson) (ms : List ModuleJson) (m : ModuleJson)
    (dep range : String)
    (hm : m ∈ buildModuleMap ms)
    (hdep : (dep, range) ∈ m.dependencies)
    (hnodup : (m.dependencies.map Prod.fst).Nodup)
    (hbb : dep ≠ "bits-base")
    (habs : findMod (buildModuleMap ms) dep = none) :
    (check_module_deps semver base ms).1 = false ∧
    (check_module_deps semver base ms).2.countP (isMissing m.name dep) = 1 ∧
    (∀ (mods : List ModuleJson) (n r : String),
      checkDep semver base mods n "bits-base" r
        = (if check_version semver (some r) base.version then (true, [])
           else (false, [Diag.baseMismatch n base.version r]))) := by
  refine ⟨?_, ?_, ?_⟩
  · rw [check_module_deps_eq]
    have hfail : depOk semver base (buildModuleMap ms) m.name (dep, range)
        = false := by
      unfold depOk checkDep
      rw [if_neg hbb, habs]
    cases hall : (buildModuleMap ms).all (fun m' => m'.dependencies.all
        (depOk semver base (buildModuleMap ms) m'.name)) with
    | false => rfl
    | true =>
      have h1 := (List.all_eq_true.mp hall) m hm
      have h2 := (List.all_eq_true.mp h1) (dep, range) hdep
      rw [hfail] at h2
      cases h2
  · rw [check_module_deps_eq]
    exact countP_isMissing_total semver base (buildModuleMap ms) dep m hnodup
      hbb habs (List.mem_map_of_mem Prod.fst hdep) (buildModuleMap ms)
      (nodup_namesOf_buildModuleMap ms) hm
  · intro mods n r
    unfold checkDep
    rw [if_pos rfl]

/-- Witness for C4 at a concrete input: one module `a` depending on the
absent name `b`. -/
theorem C4_missing_dep_and_bits_base_witness :
    (check_module_deps (fun _ _ => true) ⟨"bits-base", some "1.0.0", []⟩
        [⟨"a", some "1.0.0", [("b", "^1.0.0")]⟩]).1 = false ∧
    (check_module_deps (fun _ _ => true) ⟨"bits-base", some "1.0.0", []⟩
        [⟨"a", some "1.0.0", [("b", "^1.0.0")]⟩]).2.countP
      (isMissing "a" "b") = 1 := by
  have h := C4_missing_dep_and_bits_base (fun _ _ => true)
    ⟨"bits-base", some "1.0.0", []⟩
    [⟨"a", some "1.0.0", [("b", "^1.0.0")]⟩]
    ⟨"a", some "1.0.0", [("b", "^1.0.0")]⟩ "b" "^1.0.0"
    (by decide) (by decide) (by decide) (by decide) (by decide)
  exact ⟨h.1, h.2.1⟩

/-- C5: an empty/absent version string on either side makes
`__check_version` pass vacuously; with an empty `base.version`, every
`bits-base` constraint of every module passes and the full run emits no
base-mismatch diagnostic at all. -/
theorem C5_empty_version_vacuous (semver : String → String → Bool)
    (req str : Option String)
    (h : strNone req = true ∨ strNone str = true)
    (base : ModuleJson) (hb : strNone base.version = true)
    (mods ms : List ModuleJson) (n r : String) :
    check_version semver req str = true ∧
    checkDep semver base mods n "bits-base" r = (true, []) ∧
    (check_module_deps semver base ms).2.countP isBaseMismatch = 0 := by
  refine ⟨?_, ?_, ?_⟩
  · rcases h with h | h <;> simp [check_version, h]
  · simp [checkDep, check_version, hb]
  · rw [check_module_deps_eq]
    rw [List.countP_eq_zero]
    intro d hd
    rcases List.mem_flatMap.mp hd with ⟨m, hmem, hd2⟩
    rcases List.mem_flatMap.mp hd2 with ⟨dv, hdv, hd3⟩
    rw [no_baseMismatch_depDiags semver base hb (buildModuleMap ms) m.name
      dv d hd3]
    simp

/-- Witness for C5 at a concrete input: unversioned base, a module
requesting `bits-base: ^2.0.0`, with an always-failing external
`semver`. -/
theorem C5_empty_version_vacuous_witness :
    check_version (fun _ _ => false) (some "") (some "9.9.9") = true ∧
    checkDep (fun _ _ => false) ⟨"bits-base", some "", []⟩ [] "a" "bits-base"
      "^2.0.0" = (true, []) ∧
    (check_module_deps (fun _ _ => false) ⟨"bits-base", some "", []⟩
        [⟨"a", some "1.0.0", [("bits-base", "^2.0.0")]⟩]).2.countP
      isBaseMismatch = 0 :=
  C5_empty_version_vacuous (fun _ _ => false) (some "") (some "9.9.9")
    (Or.inl (by decide)) ⟨"bits-base", some "", []⟩ (by decide) []
    [⟨"a", some "1.0.0", [("bits-base", "^2.0.0")]⟩] "a" "^2.0.0"

/-- C6: `check_module_deps` scans every module and every declared
dependency with no short-circuit: its boolean is the conjunction of all
individual checks, its diagnostics are the concatenation of every
check's diagnostics, and it returns `True` exactly when the diagnostic
list is empty (in particular, all-satisfied inputs yield
`(True, [])`). -/
theorem C6_full_scan_conjunction (semver : String → String → Bool)
    (base : ModuleJson) (ms : List ModuleJson) :
    check_module_deps semver base ms
      = ((buildModuleMap ms).all (fun m => m.dependencies.all
            (depOk semver base (buildModuleMap ms) m.name)),
         (buildModuleMap ms).flatMap (fun m => m.dependencies.flatMap
            (depDiags semver base (buildModuleMap ms) m.name))) ∧
    ((check_module_deps semver base ms).1 = true ↔
      (check_module_deps semver base ms).2 = []) := by
  refine ⟨check_module_deps_eq semver base ms, ?_⟩
  rw [check_module_deps_eq]
  simp only [List.all_eq_true, List.flatMap_eq_nil_iff]
  constructor
  · intro h m hm dv hdv
    exact (depOk_iff_depDiags_nil semver base (buildModuleMap ms) m.name
      dv).mp (h m hm dv hdv)
  · intro h m hm dv hdv
    exact (depOk_iff_depDiags_nil semver base (buildModuleMap ms) m.name
      dv).mpr (h m hm dv hdv)

/-- C10: the validator's verdict and diagnostics never depend on the
base descriptor's own `dependencies` mapping — two base descriptors
differing only there give identical results. -/
theorem C10_base_dependencies_ignored (semver : String → String → Bool)
    (bname : String) (bver : Option String)
    (d1 d2 : List (String × String)) (ms : List ModuleJson) :
    check_module_deps semver ⟨bname, bver, d1⟩ ms
      = check_module_deps semver ⟨bname, bver, d2⟩ ms := rfl

/-! ## Helper lemmas on the composer builder state -/

/-- The descriptors appended to the manifest by a call sequence. -/
def modsOf (ops : List BuilderOp) : List ModuleJson :=
  ops.filterMap (fun o => match o with
    | .addMod r => some (readModuleJson r)
    | .addOvl _ _ => none)

theorem foldl_applyOp_modulesInfo :
    ∀ (ops : List BuilderOp) (b : romgBuilder),
      (ops.foldl applyOp b).modulesInfo = b.modulesInfo ++ modsOf ops
  | [], b => by simp [modsOf]
  | op :: rest, b => by
    rw [List.foldl_cons, foldl_applyOp_modulesInfo rest]
    cases op with
    | addMod r => simp [applyOp, addModule, modsOf]
    | addOvl n v => simp [applyOp, addOverlay, modsOf]

theorem length_modsOf : ∀ ops : List BuilderOp,
    (modsOf ops).length = countAddMod ops
  | [] => rfl
  | op :: rest => by
    have ih := length_modsOf rest
    unfold modsOf countAddMod at ih ⊢
    cases op <;> simp [List.filterMap_cons, List.countP_cons, ih]

theorem applyOp_moduleDir (b : romgBuilder) (op : BuilderOp) :
    (applyOp b op).moduleDir = b.moduleDir := by
  cases op <;> rfl

theorem foldl_applyOp_moduleDir :
    ∀ (ops : List BuilderOp) (b : romgBuilder),
      (ops.foldl applyOp b).moduleDir = b.moduleDir
  | [], _ => rfl
  | op :: rest, b => by
    rw [List.foldl_cons, foldl_applyOp_moduleDir rest, applyOp_moduleDir]

/-! ## Claim theorems: composer builder state -/

/-- C7: after `addBase` followed by any sequence of `addModule` /
`addOverlay` calls, the manifest's `modules` list holds `1 + n` entries
where `n` is the number of `addModule` calls, and its first entry is the
base descriptor. -/
theorem C7_manifest_base_first (tmp n v : String) (br : Option String)
    (fmt : Int) (own : Option Ownership) (archEnv : Option String)
    (uuid : String) (rawBase : RawModuleJson) (ops : List BuilderOp) :
    ((ops.foldl applyOp
        (addBase (romgBuilder.init tmp n v br fmt own archEnv uuid)
          rawBase).1).modulesInfo).length = 1 + countAddMod ops ∧
    ((ops.foldl applyOp
        (addBase (romgBuilder.init tmp n v br fmt own archEnv uuid)
          rawBase).1).modulesInfo).head? = some (readModuleJson rawBase) := by
  have hinit : (romgBuilder.init tmp n v br fmt own archEnv uuid).modulesInfo
      = [] := by
    unfold romgBuilder.init
    split <;> rfl
  have hbase : ((addBase (romgBuilder.init tmp n v br fmt own archEnv uuid)
      rawBase).1).modulesInfo = [readModuleJson rawBase] := by
    unfold addBase
    simp [hinit]
  rw [foldl_applyOp_modulesInfo, hbase]
  constructor
  · simp [length_modsOf, Nat.add_comm]
  · rfl

/-- C8: a format-v1 composer extracts every added module under
`data/base/modules/modules/<name>/` and a format-v2 composer under
`modules/<name>/`; the module directory is fixed at construction and
unchanged by any later `addModule`/`addOverlay` call, so the two layouts
never mix within one run. -/
theorem C8_layout_by_format (tmp n v : String) (br : Option String)
    (own : Option Ownership) (archEnv : Option String) (uuid : String)
    (rawBase raw : RawModuleJson) (ops : List BuilderOp) :
    (addModule (ops.foldl applyOp
        (addBase (romgBuilder.init tmp n v br 1 own archEnv uuid)
          rawBase).1) raw).2 = "data/base/modules/modules/" ++ raw.name ∧
    (addModule (ops.foldl applyOp
        (addBase (romgBuilder.init tmp n v br 2 own archEnv uuid)
          rawBase).1) raw).2 = "modules/" ++ raw.name ∧
    (ops.foldl applyOp (addBase (romgBuilder.init tmp n v br 1 own archEnv
        uuid) rawBase).1).moduleDir
      = (romgBuilder.init tmp n v br 1 own archEnv uuid).moduleDir ∧
    (ops.foldl applyOp (addBase (romgBuilder.init tmp n v br 2 own archEnv
        uuid) rawBase).1).moduleDir
      = (romgBuilder.init tmp n v br 2 own archEnv uuid).moduleDir := by
  have h1 : (romgBuilder.init tmp n v br 1 own archEnv uuid).moduleDir
      = "data/base/modules/modules" := by
    simp [romgBuilder.init]
  have h2 : (romgBuilder.init tmp n v br 2 own archEnv uuid).moduleDir
      = "modules" := by
    simp [romgBuilder.init]
  have hstep : ∀ b : romgBuilder, (addModule b raw).2
      = b.moduleDir ++ "/" ++ raw.name := fun _ => rfl
  have hkeep : ∀ (fmt : Int), (ops.foldl applyOp
      (addBase (romgBuilder.init tmp n v br fmt own archEnv uuid)
        rawBase).1).moduleDir
      = (romgBuilder.init tmp n v br fmt own archEnv uuid).moduleDir := by
    intro fmt
    rw [foldl_applyOp_moduleDir]
    rfl
  refine ⟨?_, ?_, hkeep 1, hkeep 2⟩
  · rw [hstep, hkeep 1, h1]
    rfl
  · rw [hstep, hkeep 2, h2]
    rfl

/-! ## Helper lemmas on the prepackage-script loop -/

theorem runScriptsLoop_ok_iff (d t : String) :
    ∀ l : List (String × Int),
      (runScriptsLoop d t l).1 = .ok ()
        ↔ l.all (fun p => decide (p.2 = 0)) = true
  | [] => by simp [runScriptsLoop]
  | (n, c) :: rest => by
    by_cases hc : c = 0
    · simp [runScriptsLoop, hc, runScriptsLoop_ok_iff d t rest]
    · simp [runScriptsLoop, hc]

theorem runScriptsLoop_runs (d t : String) :
    ∀ l : List (String × Int),
      (runScriptsLoop d t l).2
        = (l.take ((l.takeWhile (fun p => decide (p.2 = 0))).length + 1)).map
            (fun p => { path := d ++ "/" ++ p.1, cwd := t : ScriptRun })
  | [] => by simp [runScriptsLoop]
  | (n, c) :: rest => by
    by_cases hc : c = 0
    · simp [runScriptsLoop, hc, List.takeWhile_cons,
        runScriptsLoop_runs d t rest]
    · simp [runScriptsLoop, hc, List.takeWhile_cons]

/-! ## Claim theorems: prepackage scripts (C2) -/

/-- C2 counterexample: one script exiting 1 makes `runPrepackageScripts`
raise (the run aborts rather than continuing) and leaves the
`prepackage_scripts` directory in place (it is not deleted), contradicting
the claim that a non-zero exit only logs and that the directory is
deleted unconditionally. -/
theorem C2_counterexample :
    runPrepackageScripts "/tmp/romg-x" (some [("a.sh", 1)])
      = (.error (.prepackageFailed "/tmp/romg-x/prepackage_scripts/a.sh"),
         some [("a.sh", 1)],
         [{ path := "/tmp/romg-x/prepackage_scripts/a.sh",
            cwd := "/tmp/romg-x" }]) := rfl

/-- C2 (amended): when the reserved directory exists, its regular files
run in listing order as child processes with `cwd` = tree root, but only
up to and including the first script with a non-zero exit; that non-zero
exit raises and aborts composition, and the script directory is deleted
only when every script exits zero (it survives a failed run
untouched). -/
theorem C2_prepackage_scripts (tmp : String)
    (scripts : List (String × Int)) :
    runPrepackageScripts tmp none = (.ok (), none, []) ∧
    (runPrepackageScripts tmp (some scripts)).2.1
      = (if scripts.all (fun p => decide (p.2 = 0)) then none
         else some scripts) ∧
    ((runPrepackageScripts tmp (some scripts)).1 = .ok ()
      ↔ scripts.all (fun p => decide (p.2 = 0)) = true) ∧
    (runPrepackageScripts tmp (some scripts)).2.2
      = (scripts.take
          ((scripts.takeWhile (fun p => decide (p.2 = 0))).length + 1)).map
          (fun p => { path := tmp ++ "/prepackage_scripts" ++ "/" ++ p.1,
                      cwd := tmp : ScriptRun }) := by
  refine ⟨rfl, ?_, ?_, ?_⟩
  · cases hok : (runScriptsLoop (tmp ++ "/prepackage_scripts") tmp
        scripts).1 with
    | error e =>
      have hall : ¬ scripts.all (fun p => decide (p.2 = 0)) = true := by
        intro h
        have h2 := (runScriptsLoop_ok_iff (tmp ++ "/prepackage_scripts")
          tmp scripts).mpr h
        rw [hok] at h2
        cases h2
      simp only [runPrepackageScripts, hok, if_neg hall]
    | ok u =>
      cases u
      have hall := (runScriptsLoop_ok_iff (tmp ++ "/prepackage_scripts")
        tmp scripts).mp hok
      simp only [runPrepackageScripts, hok, if_pos hall]
  · cases hok : (runScriptsLoop (tmp ++ "/prepackage_scripts") tmp
        scripts).1 with
    | error e =>
      simp only [runPrepackageScripts, hok]
      constructor
      · intro h
        cases h
      · intro h
        have h2 := (runScriptsLoop_ok_iff (tmp ++ "/prepackage_scripts")
          tmp scripts).mpr h
        rw [hok] at h2
        cases h2
    | ok u =>
      cases u
      simp only [runPrepackageScripts, hok, true_iff]
      exact (runScriptsLoop_ok_iff (tmp ++ "/prepackage_scripts") tmp
        scripts).mp hok
  · cases hok : (runScriptsLoop (tmp ++ "/prepackage_scripts") tmp
        scripts).1 with
    | error e =>
      simp only [runPrepackageScripts, hok]
      exact runScriptsLoop_runs (tmp ++ "/prepackage_scripts") tmp scripts
    | ok u =>
      simp only [runPrepackageScripts, hok]
      exact runScriptsLoop_runs (tmp ++ "/prepackage_scripts") tmp scripts

/-! ## Claim theorems: build pass (C3) -/

/-- C3 counterexample: a module whose `package.json` declares
`bits:install` but whose `support/yarn-cache` directory is absent is
silently skipped by the build pass — the hook is never run (no hook
call, state unchanged) even though the metadata declares it, contradicting
the claim that a declared hook is always run during the build pass. -/
theorem C3_counterexample :
    get_bits_install (some { scripts := some ["bits:install", "test"] })
      = .ok true ∧
    buildModule
      (romgBuilder.init "/tmp/romg-x" "n" "1.0.0" none 1 none none "u")
      "mod-a" true 0 0
      { isDir := true,
        packageJson := some { scripts := some ["bits:install", "test"] },
        cacheDir := none }
      []
      = .ok ({ isDir := true,
               packageJson := some { scripts := some ["bits:install", "test"] },
               cacheDir := none }, [], []) := ⟨rfl, rfl⟩

/-- C3 (amended): during the build pass, for the base and for every
non-base module whose directory exists: when the package metadata
declares `bits:install` and the module's `support/yarn-cache` directory
exists, the hook runs as a child process in the module directory with
`YARN_CACHE_FOLDER` pointing at that cache directory injected into the
environment copy; on exit 0 the cache directory is deleted, on a
non-zero exit the composition aborts.  When the metadata check reports
no hook (unreadable `package.json`, or a `scripts` table without the
entry), the module is skipped with a warning only; a declared hook with
no cache directory is skipped silently. -/
theorem C3_build_hook_discipline (b : romgBuilder) (mn : String)
    (hookExit rsyncExit : Int) (m : ModuleState) (shared : DirContent)
    (s : List String) (cache : DirContent)
    (hdir : m.isDir = true) :
    (m.packageJson = some { scripts := some s } →
      s.contains "bits:install" = true → m.cacheDir = some cache →
      buildModule b mn true hookExit rsyncExit m shared
        = (if hookExit = 0
           then .ok ({ m with cacheDir := none },
             [{ cwd := b.tmpDir ++ "/" ++ b.moduleDir ++ "/" ++ mn,
                yarnCacheFolder := b.tmpDir ++ "/" ++ b.moduleDir ++ "/"
                  ++ mn ++ "/support/yarn-cache" }], shared)
           else .error (.buildFailed
             (b.tmpDir ++ "/" ++ b.moduleDir ++ "/" ++ mn)))) ∧
    (m.packageJson = some { scripts := some s } →
      s.contains "bits:install" = true → m.cacheDir = some cache →
      buildBase b true hookExit m
        = (if hookExit = 0
           then .ok ({ m with cacheDir := none },
             [{ cwd := b.tmpDir ++ "/" ++ b.baseDir,
                yarnCacheFolder := b.tmpDir ++ "/" ++ b.baseDir
                  ++ "/support/yarn-cache" }])
           else .error (.buildFailed (b.tmpDir ++ "/" ++ b.baseDir)))) ∧
    (get_bits_install m.packageJson = .ok false →
      buildModule b mn true hookExit rsyncExit m shared
        = .ok (m, [], shared) ∧
      buildBase b true hookExit m = .ok (m, [])) ∧
    (m.packageJson = some { scripts := some s } →
      s.contains "bits:install" = true → m.cacheDir = none →
      buildModule b mn true hookExit rsyncExit m shared
        = .ok (m, [], shared)) := by
  refine ⟨?_, ?_, ?_, ?_⟩
  · intro hpj hdecl hcache
    unfold buildModule get_bits_install
    rw [hpj]
    simp only [hdecl]
    unfold __buildModule
    rw [hdir, hcache]
    by_cases hexit : hookExit = 0
    · rw [if_pos hexit]
      simp [hpj]
      rw [if_pos hexit]
    · rw [if_neg hexit]
      simp
      rw [if_neg hexit]
  · intro hpj hdecl hcache
    unfold buildBase get_bits_install
    rw [hpj]
    simp only [hdecl]
    unfold __buildModule
    rw [hdir, hcache]
    by_cases hexit : hookExit = 0
    · rw [if_pos hexit]
      simp [hpj]
      rw [if_pos hexit]
    · rw [if_neg hexit]
      simp
      rw [if_neg hexit]
  · intro hno
    constructor
    · unfold buildModule
      rw [hno]
      simp
    · unfold buildBase
      rw [hno]
      simp
  · intro hpj hdecl hcache
    unfold buildModule get_bits_install
    rw [hpj]
    simp only [hdecl]
    unfold __buildModule
    rw [hdir, hcache]
    simp

/-- Witness for C3 at a concrete input: a module with a declared hook
and a present cache directory, hook exiting 0. -/
theorem C3_build_hook_discipline_witness :
    buildModule (romgBuilder.init "/tmp/romg-x" "n" "1.0.0" none 1 none
      none "u") "mod-a" true 0 0
      { isDir := true, packageJson := some { scripts := some ["bits:install"] },
        cacheDir := some [("p.tgz", "h")] } []
      = .ok ({ isDir := true,
               packageJson := some { scripts := some ["bits:install"] },
               cacheDir := none },
             [{ cwd := "/tmp/romg-x/data/base/modules/modules/mod-a",
                yarnCacheFolder :=
                  "/tmp/romg-x/data/base/modules/modules/mod-a/support/yarn-cache" }],
             []) := by
  have h := (C3_build_hook_discipline
    (romgBuilder.init "/tmp/romg-x" "n" "1.0.0" none 1 none none "u")
    "mod-a" 0 0
    { isDir := true, packageJson := some { scripts := some ["bits:install"] },
      cacheDir := some [("p.tgz", "h")] }
    [] ["bits:install"] [("p.tgz", "h")] rfl).1 rfl rfl rfl
  rw [h]
  rfl

/-! ## Claim theorems: cache merge (C9) -/

theorem rsyncMerge_keeps_dst (src dst : DirContent) (k v : String)
    (he : (k, v) ∈ dst) : ∃ w, (k, w) ∈ rsyncMerge src dst := by
  unfold rsyncMerge
  rcases hfind : src.find? (fun s => s.1 == k) with _ | s
  · refine ⟨v, List.mem_append_left _ ?_⟩
    have h := List.mem_map_of_mem
      (fun e : String × String =>
        match src.find? (fun s => s.1 == e.1) with
        | some s => (e.1, s.2)
        | none => e) he
    simpa [hfind] using h
  · refine ⟨s.2, List.mem_append_left _ ?_⟩
    have h := List.mem_map_of_mem
      (fun e : String × String =>
        match src.find? (fun s => s.1 == e.1) with
        | some s => (e.1, s.2)
        | none => e) he
    simpa [hfind] using h

theorem rsyncMerge_keeps_src (src dst : DirContent) (k v : String)
    (hs : (k, v) ∈ src) : ∃ w, (k, w) ∈ rsyncMerge src dst := by
  unfold rsyncMerge
  by_cases hd : dst.any (fun e => e.1 == k)
  · rcases List.any_eq_true.mp hd with ⟨e, he, hek⟩
    have hek' : e.1 = k := by simpa using hek
    rcases hfind : src.find? (fun s => s.1 == e.1) with _ | s
    · exfalso
      have hnone := List.find?_eq_none.mp hfind (k, v) hs
      simp [hek'] at hnone
    · refine ⟨s.2, List.mem_append_left _ ?_⟩
      have h := List.mem_map_of_mem
        (fun e : String × String =>
          match src.find? (fun s => s.1 == e.1) with
          | some s => (e.1, s.2)
          | none => e) he
      rw [← hek']
      simpa [hfind] using h
  · refine ⟨v, List.mem_append_right _ ?_⟩
    rw [List.mem_filter]
    refine ⟨hs, ?_⟩
    have hfalse : dst.any (fun e => e.1 == k) = false := by
      cases h : dst.any (fun e => e.1 == k)
      · rfl
      · exact absurd h hd
    show (!(dst.any fun e => e.1 == k)) = true
    rw [hfalse]
    rfl

/-- C9 counterexample: a format-v2 composer never sets `yarnCacheDir`, so
with the build pass off and a module cache directory present, the merge
raises `AttributeError` instead of merging and deleting — the claimed
behaviour does not hold "under either format version". -/
theorem C9_counterexample :
    (romgBuilder.init "/tmp/romg-x" "n" "1.0.0" none 2 none none
      "u").yarnCacheDir = none ∧
    buildModule
      (romgBuilder.init "/tmp/romg-x" "n" "1.0.0" none 2 none none "u")
      "mod-a" false 0 0
      { isDir := true, packageJson := none, cacheDir := some [("p.tgz", "h")] }
      [] = .error .attributeError := ⟨rfl, rfl⟩

/-- C9 (amended): when the build pass is not requested and the composer
is format v1 (its `yarnCacheDir` attribute is set), each added module's
cache directory is merged additively into the shared cache (every
existing shared key survives, every module-cache key appears) and then
deleted; the merge is a no-op when the module cache directory is absent;
a non-zero rsync exit aborts with `sys.exit(1)`.  Under format v2 the
attribute is unset and a present module cache raises instead. -/
theorem C9_cache_dedup (b : romgBuilder) (mn : String) (d : String)
    (hookExit rsyncExit : Int) (m : ModuleState) (shared : DirContent)
    (hv1 : b.yarnCacheDir = some d) :
    (m.cacheDir = none →
      buildModule b mn false hookExit rsyncExit m shared
        = .ok (m, [], shared)) ∧
    (∀ mc, m.cacheDir = some mc →
      buildModule b mn false hookExit rsyncExit m shared
        = (if rsyncExit = 0
           then .ok ({ m with cacheDir := none }, [], rsyncMerge mc shared)
           else .error (.systemExit 1))) ∧
    (∀ (src dst : DirContent) (k v : String), (k, v) ∈ dst →
      ∃ w, (k, w) ∈ rsyncMerge src dst) ∧
    (∀ (src dst : DirContent) (k v : String), (k, v) ∈ src →
      ∃ w, (k, w) ∈ rsyncMerge src dst) := by
  refine ⟨?_, ?_, rsyncMerge_keeps_dst, rsyncMerge_keeps_src⟩
  · intro hcache
    obtain ⟨i, p, c⟩ := m
    simp only at hcache
    subst hcache
    unfold buildModule updateYarnCache
    simp
  · intro mc hcache
    unfold buildModule updateYarnCache
    rw [hcache, hv1]
    by_cases hr : rsyncExit = 0
    · subst hr
      simp
    · simp [hr]

/-- Witness for C9 at a concrete input: a v1 composer merging one module
cache file into a shared cache holding one other file. -/
theorem C9_cache_dedup_witness :
    buildModule
      (romgBuilder.init "/tmp/romg-x" "n" "1.0.0" none 1 none none "u")
      "mod-a" false 0 0
      { isDir := true, packageJson := none, cacheDir := some [("a", "1")] }
      [("b", "2")]
      = .ok ({ isDir := true, packageJson := none, cacheDir := none }, [],
             [("b", "2"), ("a", "1")]) := by
  have h := ((C9_cache_dedup
    (romgBuilder.init "/tmp/romg-x" "n" "1.0.0" none 1 none none "u")
    "mod-a" "/tmp/romg-x/support/yarn-cache" 0 0
    { isDir := true, packageJson := none, cacheDir := some [("a", "1")] }
    [("b", "2")] rfl).2.1) [("a", "1")] rfl
  rw [h]
  rfl

/-! ## Claim theorems: WorkingTree lifetime (C1) -/

/-- C1 counterexample: the base declares `bits:install` and its hook
exits 1 during the build pass; `__main` has no try/finally, so the raise
skips both `writeRomg` and the final `shutil.rmtree` — the WorkingTree
STILL EXISTS after the aborted run, contradicting the claim that it is
deleted on every exit path.  (No `.romg`/header file is written, as the
claim also says.) -/
theorem C1_counterexample :
    mainRun (romgBuilder.init "/tmp/romg-x" "n" "1.0.0" none 1 none none "u")
      { buildNodeModules := true
        rsyncExit := 0
        rootState :=
          { isDir := true
            packageJson := some { scripts := some [] }
            cacheDir := none }
        rootHookExit := 0
        baseState :=
          { isDir := true
            packageJson := some { scripts := some ["bits:install"] }
            cacheDir := some [("p.tgz", "h")] }
        baseHookExit := 1
        modEntries := []
        scriptDir := none }
      "/out"
      = { result := .error (.buildFailed "/tmp/romg-x/."),
          workingTreeExists := true, outputFiles := [] } := rfl

/-- C1 (amended): the WorkingTree is deleted only on the success path.
A completed run deletes the tree and writes exactly the `.romg`/header
pair; any aborting run (extraction, required build hook, cache sync or
prepackage failure) propagates its exception past both `writeRomg` and
the final `rmtree`, leaving the WorkingTree in place and writing no
output file. -/
theorem C1_tree_deleted_only_on_success (b : romgBuilder) (cfg : RunConfig)
    (outputDir : String) :
    ((mainRun b cfg outputDir).result = .ok () →
      (mainRun b cfg outputDir).workingTreeExists = false ∧
      (mainRun b cfg outputDir).outputFiles
        = [outputDir ++ "/" ++ romgFilename b,
           outputDir ++ "/" ++ headerFilename b]) ∧
    (∀ e, (mainRun b cfg outputDir).result = .error e →
      (mainRun b cfg outputDir).workingTreeExists = true ∧
      (mainRun b cfg outputDir).outputFiles = []) := by
  unfold mainRun
  cases h : mainSteps b cfg with
  | error e =>
    refine ⟨?_, ?_⟩
    · intro hok
      cases hok
    · intro e2 _
      exact ⟨rfl, rfl⟩
  | ok u =>
    refine ⟨?_, ?_⟩
    · intro _
      exact ⟨rfl, rfl⟩
    · intro e2 herr
      cases herr

/-- Witness for C1 at a concrete successful run: tree deleted, both
output files written. -/
theorem C1_tree_deleted_only_on_success_witness :
    (mainRun (romgBuilder.init "/tmp/romg-x" "n" "1.0.0" none 1 none none
        "u")
      { buildNodeModules := false, rsyncExit := 0,
        rootState := { isDir := true, packageJson := none, cacheDir := none },
        rootHookExit := 0,
        baseState := { isDir := true, packageJson := none, cacheDir := none },
        baseHookExit := 0,
        modEntries := [], scriptDir := none }
      "/out").workingTreeExists = false ∧
    (mainRun (romgBuilder.init "/tmp/romg-x" "n" "1.0.0" none 1 none none
        "u")
      { buildNodeModules := false, rsyncExit := 0,
        rootState := { isDir := true, packageJson := none, cacheDir := none },
        rootHookExit := 0,
        baseState := { isDir := true, packageJson := none, cacheDir := none },
        baseHookExit := 0,
        modEntries := [], scriptDir := none }
      "/out").outputFiles = ["/out/n_1.0.0.romg", "/out/n_1.0.0_header.json"] := by
  have h := (C1_tree_deleted_only_on_success
    (romgBuilder.init "/tmp/romg-x" "n" "1.0.0" none 1 none none "u")
    { buildNodeModules := false, rsyncExit := 0,
      rootState := { isDir := true, packageJson := none, cacheDir := none },
      rootHookExit := 0,
      baseState := { isDir := true, packageJson := none, cacheDir := none },
      baseHookExit := 0,
      modEntries := [], scriptDir := none }
    "/out").1 rfl
  exact ⟨h.1, h.2⟩
